import Mathlib

/-
Verification of the in-memory aggregation/grouping engine of the
physique57 insight-hub dashboard, as implemented in the table components
under `src/components/dashboard/`.  Numbers are modelled as rationals
(`ℚ`): the source manipulates finite JS numbers and every division in it
is guarded by a positivity test on the denominator, so no NaN/Infinity
value can arise on the guarded paths; totality of the Lean functions
expresses that the computations never throw.
-/

namespace Insight

/-- JS `x || 0` on an optional numeric record field: an absent field
defaults to `0` (and an explicit `0` stays `0`). -/
def qv (x : Option ℚ) : ℚ := x.getD 0

/-- JS `a || b` where `a` is an optional string field: `undefined` and the
empty string are falsy. -/
def jsOrStr (a : Option String) (b : String) : String :=
  match a with
  | some s => if s = "" then b else s
  | none => b

/-- JS `a || b` on a plain string: the empty string is falsy. -/
def jsOrS (a b : String) : String :=
  if a = "" then b else a

/-- Character-list model of JS `String.prototype.toLowerCase` (the class
type strings in this data are ASCII). -/
def strLower (s : String) : String := String.mk (s.toList.map Char.toLower)

/-- Whether `pat` occurs at the head of `l`. -/
def listPre (pat l : List Char) : Bool :=
  match pat, l with
  | [], _ => true
  | _ :: _, [] => false
  | a :: pa, b :: lb => a == b && listPre pa lb

/-- Whether `pat` occurs as a contiguous sublist of `l`. -/
def listInf (pat : List Char) : List Char → Bool
  | [] => listPre pat []
  | c :: cs => listPre pat (c :: cs) || listInf pat cs

/-- JS `s.includes(pat)`. -/
def strIncludes (s pat : String) : Bool := listInf pat.toList s.toList

/-- Lexicographic comparison of character lists, the order JS's default
array sort uses on (BMP) strings. -/
def charListLt : List Char → List Char → Bool
  | [], [] => false
  | [], _ :: _ => true
  | _ :: _, [] => false
  | a :: as, b :: bs => a < b || (a == b && charListLt as bs)

/-- String comparison used by JS `Array.prototype.sort()` on month/year
keys. -/
def strLtB (s t : String) : Bool := charListLt s.toList t.toList

/-- Insertion step of the string sort. -/
def insertStr (s : String) : List String → List String
  | [] => [s]
  | t :: ts => if strLtB t s then t :: insertStr s ts else s :: t :: ts

/-- JS `keys.sort()` for string keys (insertion sort; `Array.sort` is
stable, and the keys we sort are distinct anyway). -/
def sortStrs : List String → List String
  | [] => []
  | s :: ss => insertStr s (sortStrs ss)

/-- Split a character list at a separator, the semantics of JS
`s.split(sep)` for a one-character separator (splitting the empty string
yields one empty field, and a trailing separator yields a trailing empty
field, exactly as in JS). -/
def splitOnChar (sep : Char) : List Char → List (List Char)
  | [] => [[]]
  | c :: cs =>
    if c = sep then [] :: splitOnChar sep cs
    else
      match splitOnChar sep cs with
      | h :: t => (c :: h) :: t
      | [] => [[c]]

/-- JS `s.split('-')`. -/
def strSplitDash (s : String) : List String :=
  (splitOnChar '-' s.toList).map (fun l => String.mk l)

/-- Numeric value of a decimal digit string (the well-formed case of the
`Date`/`Number` parses the source performs on its month keys). -/
def natOfDigits (l : List Char) : ℕ :=
  l.foldl (fun n c => n * 10 + (c.toNat - 48)) 0

/-- Decimal digits of a natural number, with structural fuel. -/
def natToChars (fuel n : ℕ) : List Char :=
  match fuel with
  | 0 => []
  | f + 1 =>
    if n < 10 then [Char.ofNat (48 + n)]
    else natToChars f (n / 10) ++ [Char.ofNat (48 + n % 10)]

/-- Decimal rendering of a natural number (JS `String(n)` /
template-literal interpolation). -/
def natStr (n : ℕ) : String := String.mk (natToChars (n + 1) n)

/-- Model of a JS object used as a string-keyed map that remembers
insertion order (the semantics of `acc[key]` in the `reduce` folds):
looking up a key. -/
def lookupKey {V : Type} (k : String) : List (String × V) → Option V
  | [] => none
  | (k', v) :: rest => if k' = k then some v else lookupKey k rest

/-- Model of `acc[k] = f(acc[k] ?? init)` on a JS object: update the entry
in place if the key is present, append a fresh entry otherwise. -/
def upsert {V : Type} (k : String) (init : V) (f : V → V) :
    List (String × V) → List (String × V)
  | [] => [(k, f init)]
  | (k', v) :: rest =>
    if k' = k then (k', f v) :: rest else (k', v) :: upsert k init f rest

/-- Sum of a numeric field over the values of the map. -/
def sumSnd {V : Type} (F : V → ℚ) (l : List (String × V)) : ℚ :=
  (l.map (fun p => F p.2)).sum

/-! ### Session records (`useSessionsData`'s `SessionData`), restricted to
the fields the dashboard tables under verification read. -/

structure Session where
  cleanedClass : Option String
  classType : Option String
  capacity : Option ℚ
  checkedInCount : Option ℚ
  totalPaid : Option ℚ
  bookedCount : Option ℚ
  lateCancelledCount : Option ℚ
  time : String
  dayOfWeek : String
  trainerName : String
  location : String
deriving DecidableEq

/-- Class-format key: `session.cleanedClass || session.classType ||
'Unknown'` (EnhancedClassFormatPerformanceTable line 56,
ClassPerformanceRankingTable line 30). -/
def classFormat (s : Session) : String :=
  jsOrStr s.cleanedClass (jsOrStr s.classType "Unknown")

/-- Hosted-class exclusion test:
`classFormat.toLowerCase().includes('hosted')`. -/
def isHosted (s : Session) : Bool :=
  strIncludes (strLower (classFormat s)) "hosted"

/-- Accumulator-and-derived row of
`EnhancedClassFormatPerformanceTable` (`ClassFormatData`). -/
structure ClassAgg where
  classFormat : String
  totalSessions : ℚ
  emptySessions : ℚ
  nonEmptySessions : ℚ
  totalCheckedIn : ℚ
  totalLateCancelled : ℚ
  totalBooked : ℚ
  totalCapacity : ℚ
  totalRevenue : ℚ
  revenueGeneratingSessions : ℚ
  avgClassSize : ℚ
  avgRevenue : ℚ
  fillRate : ℚ
  showUpRate : ℚ
  utilizationRate : ℚ
  cancellationRate : ℚ
  revenueEfficiency : ℚ
  revenuePerAttendee : ℚ
  emptySessionRate : ℚ
  sessions : List Session
deriving DecidableEq

/-- Fresh group created when a class format is first seen
(EnhancedClassFormatPerformanceTable lines 61-84). -/
def initClassAgg (k : String) : ClassAgg :=
  { classFormat := k
    totalSessions := 0, emptySessions := 0, nonEmptySessions := 0
    totalCheckedIn := 0, totalLateCancelled := 0, totalBooked := 0
    totalCapacity := 0, totalRevenue := 0, revenueGeneratingSessions := 0
    avgClassSize := 0, avgRevenue := 0, fillRate := 0, showUpRate := 0
    utilizationRate := 0, cancellationRate := 0, revenueEfficiency := 0
    revenuePerAttendee := 0, emptySessionRate := 0, sessions := [] }

/-- Folding one session into its group
(EnhancedClassFormatPerformanceTable lines 86-103). -/
def classStep (s : Session) (c : ClassAgg) : ClassAgg :=
  { c with
    totalSessions := c.totalSessions + 1
    totalCapacity := c.totalCapacity + qv s.capacity
    totalCheckedIn := c.totalCheckedIn + qv s.checkedInCount
    totalRevenue := c.totalRevenue + qv s.totalPaid
    totalBooked := c.totalBooked + qv s.bookedCount
    totalLateCancelled := c.totalLateCancelled + qv s.lateCancelledCount
    sessions := c.sessions ++ [s]
    emptySessions :=
      if qv s.checkedInCount = 0 then c.emptySessions + 1 else c.emptySessions
    nonEmptySessions :=
      if qv s.checkedInCount = 0 then c.nonEmptySessions
      else c.nonEmptySessions + 1
    revenueGeneratingSessions :=
      if 0 < qv s.totalPaid then c.revenueGeneratingSessions + 1
      else c.revenueGeneratingSessions }

/-- One step of the `data.reduce` fold: hosted classes are skipped before
touching the accumulator map (lines 55-106). -/
def classFold (acc : List (String × ClassAgg)) (s : Session) :
    List (String × ClassAgg) :=
  if isHosted s then acc
  else upsert (classFormat s) (initClassAgg (classFormat s)) (classStep s) acc

/-- The grouping pass of `EnhancedClassFormatPerformanceTable.processedData`
(and, with identical accumulators, `ClassPerformanceRankingTable`). -/
def groupClassFormats (data : List Session) : List (String × ClassAgg) :=
  data.foldl classFold []

/-- Derived-metric pass (EnhancedClassFormatPerformanceTable lines
111-122): every ratio is guarded by a strict positivity test on its
denominator and is `0` otherwise. -/
def enrich (c : ClassAgg) : ClassAgg :=
  { c with
    avgClassSize :=
      if 0 < c.totalSessions then c.totalCheckedIn / c.totalSessions else 0
    avgRevenue :=
      if 0 < c.totalSessions then c.totalRevenue / c.totalSessions else 0
    fillRate :=
      if 0 < c.totalCapacity then
        c.totalCheckedIn / c.totalCapacity * 100 else 0
    showUpRate :=
      if 0 < c.totalBooked then c.totalCheckedIn / c.totalBooked * 100 else 0
    utilizationRate :=
      if 0 < c.totalSessions then
        (c.totalSessions - c.emptySessions) / c.totalSessions * 100 else 0
    cancellationRate :=
      if 0 < c.totalBooked then
        c.totalLateCancelled / c.totalBooked * 100 else 0
    revenueEfficiency :=
      if 0 < c.totalSessions then
        c.revenueGeneratingSessions / c.totalSessions * 100 else 0
    revenuePerAttendee :=
      if 0 < c.totalCheckedIn then c.totalRevenue / c.totalCheckedIn else 0
    emptySessionRate :=
      if 0 < c.totalSessions then
        c.emptySessions / c.totalSessions * 100 else 0 }

/-- The `enrichedData` stage of `EnhancedClassFormatPerformanceTable`
(lines 109-122): groups are filtered by the minimum-session threshold
strictly after the fold, then enriched with derived metrics.  (The
component goes on to apply the `'all'` view filter, which keeps
everything, and a sort, which only permutes rows.) -/
def enhancedProcessedData (minSessions : ℚ) (data : List Session) :
    List ClassAgg :=
  (((groupClassFormats data).map Prod.snd).filter
    (fun c => minSessions ≤ c.totalSessions)).map enrich

/-! ### Payroll records (`types/dashboard`'s `PayrollData`), restricted to
the fields the components under verification read. -/

structure PayrollData where
  teacherId : String
  teacherName : String
  teacherEmail : String
  location : String
  monthYear : Option String
  unique : Option String
  totalSessions : Option ℚ
  totalEmptySessions : Option ℚ
  totalNonEmptySessions : Option ℚ
  totalCustomers : Option ℚ
  totalPaid : Option ℚ
  cycleSessions : Option ℚ
  emptyCycleSessions : Option ℚ
  nonEmptyCycleSessions : Option ℚ
  cycleCustomers : Option ℚ
  cyclePaid : Option ℚ
  barreSessions : Option ℚ
  emptyBarreSessions : Option ℚ
  nonEmptyBarreSessions : Option ℚ
  barreCustomers : Option ℚ
  barrePaid : Option ℚ
  conversion : Option ℚ
  retention : Option ℚ
  converted : Option ℚ
  retained : Option ℚ
deriving DecidableEq

/-- Output row shape of `TrainerDataProcessor.processTrainerData`
(`ProcessedTrainerData`). -/
structure ProcessedTrainerData where
  trainerId : String
  trainerName : String
  trainerEmail : String
  location : String
  monthYear : String
  totalSessions : ℚ
  emptySessions : ℚ
  nonEmptySessions : ℚ
  totalCustomers : ℚ
  totalPaid : ℚ
  cycleSessions : ℚ
  emptyCycleSessions : ℚ
  nonEmptyCycleSessions : ℚ
  cycleCustomers : ℚ
  cycleRevenue : ℚ
  strengthSessions : ℚ
  emptyStrengthSessions : ℚ
  nonEmptyStrengthSessions : ℚ
  strengthCustomers : ℚ
  strengthRevenue : ℚ
  barreSessions : ℚ
  emptyBarreSessions : ℚ
  nonEmptyBarreSessions : ℚ
  barreCustomers : ℚ
  barreRevenue : ℚ
  classAverageExclEmpty : ℚ
  classAverageInclEmpty : ℚ
  conversion : ℚ
  retention : ℚ
  uniqueKey : String
  newMembers : ℚ
  convertedMembers : ℚ
  retainedMembers : ℚ
  conversionRate : ℚ
  retentionRate : ℚ
deriving DecidableEq

/-- Per-record body of `processTrainerData` (TrainerDataProcessor lines
51-109): note the hard-coded zeros for every Strength-Lab field and for
`newMembers`. -/
def processOne (record : PayrollData) : ProcessedTrainerData :=
  let totalSessions := qv record.totalSessions
  let emptySessions := qv record.totalEmptySessions
  let nonEmptySessions := qv record.totalNonEmptySessions
  let totalCustomers := qv record.totalCustomers
  let totalPaid := qv record.totalPaid
  let classAverageExclEmpty :=
    if 0 < nonEmptySessions then totalCustomers / nonEmptySessions else 0
  let classAverageInclEmpty :=
    if 0 < totalSessions then totalCustomers / totalSessions else 0
  let conversionRate := qv record.conversion
  let retentionRate := qv record.retention
  { trainerId := record.teacherId
    trainerName := record.teacherName
    trainerEmail := record.teacherEmail
    location := record.location
    monthYear := record.monthYear.getD ""
    totalSessions, emptySessions, nonEmptySessions, totalCustomers, totalPaid
    cycleSessions := qv record.cycleSessions
    emptyCycleSessions := qv record.emptyCycleSessions
    nonEmptyCycleSessions := qv record.nonEmptyCycleSessions
    cycleCustomers := qv record.cycleCustomers
    cycleRevenue := qv record.cyclePaid
    strengthSessions := 0
    emptyStrengthSessions := 0
    nonEmptyStrengthSessions := 0
    strengthCustomers := 0
    strengthRevenue := 0
    barreSessions := qv record.barreSessions
    emptyBarreSessions := qv record.emptyBarreSessions
    nonEmptyBarreSessions := qv record.nonEmptyBarreSessions
    barreCustomers := qv record.barreCustomers
    barreRevenue := qv record.barrePaid
    classAverageExclEmpty, classAverageInclEmpty
    conversion := qv record.converted
    retention := qv record.retained
    uniqueKey := record.unique.getD ""
    newMembers := 0
    convertedMembers := qv record.converted
    retainedMembers := qv record.retained
    conversionRate, retentionRate }

/-- Mapping the per-record body over the payroll list (`processTrainerData`). -/
def processTrainerData (payrollData : List PayrollData) :
    List ProcessedTrainerData :=
  payrollData.map processOne

/-- Metric names `getMetricValue` recognises (TrainerDataProcessor lines
115-134). -/
def knownMetrics : List String :=
  ["totalSessions", "totalCustomers", "totalPaid", "classAverageExclEmpty",
   "classAverageInclEmpty", "emptySessions", "nonEmptySessions",
   "cycleSessions", "cycleRevenue", "barreSessions", "barreRevenue",
   "strengthSessions", "strengthRevenue", "conversion", "retention",
   "conversionRate", "retentionRate", "newMembers", "convertedMembers",
   "retainedMembers"]

/-- Metric lookup `getMetricValue` (TrainerDataProcessor lines 113-137): a `switch` on
the metric name whose `default` branch silently returns `0`. -/
def getMetricValue (data : ProcessedTrainerData) (metric : String) : ℚ :=
  if metric = "totalSessions" then data.totalSessions
  else if metric = "totalCustomers" then data.totalCustomers
  else if metric = "totalPaid" then data.totalPaid
  else if metric = "classAverageExclEmpty" then data.classAverageExclEmpty
  else if metric = "classAverageInclEmpty" then data.classAverageInclEmpty
  else if metric = "emptySessions" then data.emptySessions
  else if metric = "nonEmptySessions" then data.nonEmptySessions
  else if metric = "cycleSessions" then data.cycleSessions
  else if metric = "cycleRevenue" then data.cycleRevenue
  else if metric = "barreSessions" then data.barreSessions
  else if metric = "barreRevenue" then data.barreRevenue
  else if metric = "strengthSessions" then data.strengthSessions
  else if metric = "strengthRevenue" then data.strengthRevenue
  else if metric = "conversion" then data.conversion
  else if metric = "retention" then data.retention
  else if metric = "conversionRate" then data.conversionRate
  else if metric = "retentionRate" then data.retentionRate
  else if metric = "newMembers" then data.newMembers
  else if metric = "convertedMembers" then data.convertedMembers
  else if metric = "retainedMembers" then data.retainedMembers
  else 0

/-- Grouping-dimension names the trend tables recognise
(MonthOnMonthTrendsTable lines 65-89, MultiMetricMonthlyTrendsTable lines
67-91). -/
def knownTrendViews : List String :=
  ["timeslot", "format", "trainer", "location", "dayOfWeek"]

/-- Dimension-key `switch` of the trend tables: an unknown view name
silently falls through to the `'Unknown'` dimension rather than raising a
configuration error. -/
def dimensionKeyOf (activeTrendView : String) (s : Session) : String :=
  if activeTrendView = "timeslot" then s.time ++ " (" ++ s.dayOfWeek ++ ")"
  else if activeTrendView = "format" then classFormat s
  else if activeTrendView = "trainer" then jsOrS s.trainerName "Unknown"
  else if activeTrendView = "location" then jsOrS s.location "Unknown"
  else if activeTrendView = "dayOfWeek" then jsOrS s.dayOfWeek "Unknown"
  else "Unknown"

/-! ### Month-over-month trend helpers. -/

/-- Monthly cell of `EnhancedClassAttendancePayrollTable`'s
`entry.monthlyData` (the unnamed source file defining `getMonthTrend`,
lines 68-78). -/
structure MonthCell where
  totalSessions : ℚ
  totalCustomers : ℚ
  totalPaid : ℚ
  emptySession : ℚ
  nonEmptySession : ℚ
  classAvgWithEmpty : ℚ
  classAvgWithoutEmpty : ℚ
  fillRate : ℚ
  cancelRate : ℚ
deriving DecidableEq

/-- Dynamic property access `cell[metric] || 0` on a monthly cell. -/
def monthField (m : MonthCell) (metric : String) : ℚ :=
  if metric = "totalSessions" then m.totalSessions
  else if metric = "totalCustomers" then m.totalCustomers
  else if metric = "totalPaid" then m.totalPaid
  else if metric = "emptySession" then m.emptySession
  else if metric = "nonEmptySession" then m.nonEmptySession
  else if metric = "classAvgWithEmpty" then m.classAvgWithEmpty
  else if metric = "classAvgWithoutEmpty" then m.classAvgWithoutEmpty
  else if metric = "fillRate" then m.fillRate
  else if metric = "cancelRate" then m.cancelRate
  else 0

/-- Trend helper `getMonthTrend` (unnamed source file, lines 139-151): returns `null`
when either month is missing, when the previous value is `0`, or when the
percentage change is smaller than `0.1` in absolute value; otherwise the
percentage change. -/
def getMonthTrend (currentMonth previousMonth : Option MonthCell)
    (metric : String) : Option ℚ :=
  match currentMonth, previousMonth with
  | some cur, some prev =>
    let current := monthField cur metric
    let previous := monthField prev metric
    if previous = 0 then none
    else
      let change := (current - previous) / previous * 100
      if |change| < 1 / 10 then none else some change
  | _, _ => none

/-- Monthly cell of `MultiMetricMonthlyTrendsTable`'s
`trend.monthlyBreakdown` (lines 112-119). -/
structure MMCell where
  sessions : ℚ
  attendance : ℚ
  revenue : ℚ
  fillRate : ℚ
deriving DecidableEq

/-- Zero cell (never actually consulted: the looked-up keys come from the
breakdown itself). -/
def mmZero : MMCell := ⟨0, 0, 0, 0⟩

/-- Month-on-month change of `MultiMetricMonthlyTrendsTable.processedData`
(lines 141-153): sort the month keys *present for this dimension*, take
the last two, and divide guarded by the previous value; dimensions with
fewer than two months keep the initial `0`. -/
def momOf (f : MMCell → ℚ) (breakdown : List (String × MMCell)) : ℚ :=
  let months := sortStrs (breakdown.map Prod.fst)
  match months.reverse with
  | latest :: prev :: _ =>
    let l := (lookupKey latest breakdown).getD mmZero
    let p := (lookupKey prev breakdown).getD mmZero
    if 0 < f p then (f l - f p) / f p * 100 else 0
  | _ => 0

/-! ### `ImprovedClassAttendancePayrollTable.processedData`. -/

/-- Month-on-month trend block of a processed payroll row (lines
128-133); `none` models the empty `trends: {}` object left when the
calendar-previous month is absent. -/
structure IPTrends where
  sessionsChange : ℚ
  customersChange : ℚ
  revenueChange : ℚ
  fillRateChange : ℚ
deriving DecidableEq

/-- Row of `ImprovedClassAttendancePayrollTable.processedData`
(`ProcessedPayrollData`). -/
structure IPRow where
  location : String
  teacherName : String
  monthYear : String
  totalSessions : ℚ
  totalCustomers : ℚ
  totalPaid : ℚ
  emptySession : ℚ
  nonEmptySession : ℚ
  classAvgWithEmpty : ℚ
  classAvgWithoutEmpty : ℚ
  fillRate : ℚ
  cancelRate : ℚ
  revenuePerSession : ℚ
  utilizationRate : ℚ
  trends : Option IPTrends
deriving DecidableEq

/-- Grouping key `${item.location}-${item.teacherName}-${item.monthYear}`
(line 74). -/
def ipKey (r : PayrollData) : String :=
  r.location ++ "-" ++ r.teacherName ++ "-" ++ r.monthYear.getD ""

/-- Fresh group for a payroll key (lines 75-93). -/
def ipInit (r : PayrollData) : IPRow :=
  { location := r.location, teacherName := r.teacherName
    monthYear := r.monthYear.getD ""
    totalSessions := 0, totalCustomers := 0, totalPaid := 0
    emptySession := 0, nonEmptySession := 0
    classAvgWithEmpty := 0, classAvgWithoutEmpty := 0
    fillRate := 0, cancelRate := 0, revenuePerSession := 0
    utilizationRate := 0, trends := none }

/-- Accumulation step (lines 95-100). -/
def ipStep (r : PayrollData) (e : IPRow) : IPRow :=
  { e with
    totalSessions := e.totalSessions + qv r.totalSessions
    totalCustomers := e.totalCustomers + qv r.totalCustomers
    totalPaid := e.totalPaid + qv r.totalPaid
    emptySession := e.emptySession + qv r.totalEmptySessions
    nonEmptySession := e.nonEmptySession + qv r.totalNonEmptySessions }

/-- Grouping fold of `ImprovedClassAttendancePayrollTable.processedData`
(lines 73-103), for the `location`-filterless (`'all'`) rendering path. -/
def groupImproved (data : List PayrollData) : List (String × IPRow) :=
  data.foldl (fun acc r => upsert (ipKey r) (ipInit r) (ipStep r) acc) []

/-- Derived-metric assignments (lines 107-113); `totalCapacity` is the
hard-coded `totalSessions * 15`. -/
def ipDerive (e : IPRow) : IPRow :=
  let totalCapacity := e.totalSessions * 15
  { e with
    classAvgWithEmpty :=
      if 0 < e.totalSessions then e.totalCustomers / e.totalSessions else 0
    classAvgWithoutEmpty :=
      if 0 < e.nonEmptySession then e.totalCustomers / e.nonEmptySession else 0
    fillRate :=
      if 0 < totalCapacity then e.totalCustomers / totalCapacity * 100 else 0
    cancelRate :=
      if 0 < e.totalSessions then e.emptySession / e.totalSessions * 100 else 0
    revenuePerSession :=
      if 0 < e.totalSessions then e.totalPaid / e.totalSessions else 0
    utilizationRate :=
      if 0 < e.totalSessions then
        (e.totalSessions - e.emptySession) / e.totalSessions * 100 else 0 }

/-- Parse of a well-formed `"YYYY-MM"` month key, the shape
`new Date(item.monthYear + '-01')` relies on (malformed strings are not
exercised by the claims; they yield `(0, 0)` here and an invalid `Date`
in the source). -/
def parseMonth (s : String) : ℕ × ℕ :=
  match strSplitDash s with
  | [y, m] => (natOfDigits y.toList, natOfDigits m.toList)
  | _ => (0, 0)

/-- Formatting of a month key:
`${getFullYear()}-${String(getMonth()+1).padStart(2, '0')}` (line 119). -/
def fmtMonth (y m : ℕ) : String :=
  natStr y ++ "-" ++ (if m < 10 then "0" ++ natStr m else natStr m)

/-- Calendar-previous month key (lines 116-119): literally one calendar
month earlier, not the nearest month with data. -/
def prevMonthKeyOf (s : String) : String :=
  let ym := parseMonth s
  if ym.2 = 1 then fmtMonth (ym.1 - 1) 12 else fmtMonth ym.1 (ym.2 - 1)

/-- Trend block computed for one row against the calendar-previous row
(lines 127-134). -/
def ipTrendsOf (item : IPRow) (prevData : IPRow) : IPTrends :=
  { sessionsChange :=
      if 0 < prevData.totalSessions then
        (item.totalSessions - prevData.totalSessions) /
          prevData.totalSessions * 100 else 0
    customersChange :=
      if 0 < prevData.totalCustomers then
        (item.totalCustomers - prevData.totalCustomers) /
          prevData.totalCustomers * 100 else 0
    revenueChange :=
      if 0 < prevData.totalPaid then
        (item.totalPaid - prevData.totalPaid) / prevData.totalPaid * 100
      else 0
    fillRateChange := item.fillRate - prevData.fillRate }

/-- The `results` mapping pass (lines 106-137).  The source mutates the
grouped objects in place while scanning `Object.values(grouped)` with
`find`, so the lookup sees already-processed rows (prefix `done`) in
their derived state and not-yet-processed rows (`todo`) in their raw
state; this fold reproduces that evaluation order exactly. -/
def ipGo : List IPRow → List IPRow → List IPRow
  | done, [] => done
  | done, item :: todo =>
    let item' := ipDerive item
    let prevKey := prevMonthKeyOf item.monthYear
    let prevData := (done ++ item' :: todo).find? (fun p =>
      p.location = item.location && p.teacherName = item.teacherName &&
        p.monthYear = prevKey)
    let item'' := { item' with trends := prevData.map (ipTrendsOf item') }
    ipGo (done ++ [item'']) todo

/-- The `results` mapping pass of `ImprovedClassAttendancePayrollTable`
(the component then sorts these rows, which only permutes them). -/
def improvedResults (data : List PayrollData) : List IPRow :=
  ipGo [] ((groupImproved data).map Prod.snd)

/-! ### `PowerCycleBarreStrengthYearOnYearTable.yearOnYearData`. -/

/-- Year bucket `trainer.monthYear?.split('-')[1] || '2024'` (line 59):
the token after the first dash of a `"Feb-2024"` label, with the JS
falsy fallback. -/
def yearOf (monthYear : String) : String :=
  match strSplitDash monthYear with
  | _ :: y :: _ => if y = "" then "2024" else y
  | _ => "2024"

/-- Trainer dimension key `${trainer.trainerName}-${trainer.location}`
(line 58). -/
def trainerKey (t : ProcessedTrainerData) : String :=
  t.trainerName ++ "-" ++ t.location

/-- Value of the trainer map: identity fields of the first contributing
record plus the per-year record lists (lines 50-74). -/
structure TrainerGroup where
  trainerName : String
  location : String
  years : List (String × List ProcessedTrainerData)
deriving DecidableEq

/-- Fresh trainer-map entry (lines 61-67). -/
def tgInit (t : ProcessedTrainerData) : TrainerGroup :=
  { trainerName := t.trainerName, location := t.location, years := [] }

/-- Pushing a record into its year bucket (lines 69-73). -/
def tgStep (t : ProcessedTrainerData) (g : TrainerGroup) : TrainerGroup :=
  { g with
    years := upsert (yearOf t.monthYear) [] (fun l => l ++ [t]) g.years }

/-- One step of the trainer-map fold. -/
def tgFold (acc : List (String × TrainerGroup))
    (t : ProcessedTrainerData) : List (String × TrainerGroup) :=
  upsert (trainerKey t) (tgInit t) (tgStep t) acc

/-- Grouping by trainer + location, then by year (lines 50-74). -/
def groupTrainers (data : List ProcessedTrainerData) :
    List (String × TrainerGroup) :=
  data.foldl tgFold []

/-- Per-year aggregate (lines 90-106). -/
structure YearTotals where
  revenue : ℚ
  sessions : ℚ
  customers : ℚ
  cycleRevenue : ℚ
  barreRevenue : ℚ
  strengthRevenue : ℚ
deriving DecidableEq

/-- The `reduce` that sums one year's records (lines 90-97). -/
def aggYear (l : List ProcessedTrainerData) : YearTotals :=
  l.foldl (fun acc t =>
    { revenue := acc.revenue + t.totalPaid
      sessions := acc.sessions + t.totalSessions
      customers := acc.customers + t.totalCustomers
      cycleRevenue := acc.cycleRevenue + t.cycleRevenue
      barreRevenue := acc.barreRevenue + t.barreRevenue
      strengthRevenue := acc.strengthRevenue + t.strengthRevenue })
    ⟨0, 0, 0, 0, 0, 0⟩

/-- Top format of the current year (lines 117-123): a stable descending
sort of the three entries keeps insertion order on ties, so PowerCycle
wins ties with both others and Barre wins ties with Strength Lab. -/
def topFormatOf (current : YearTotals) : String :=
  if current.barreRevenue ≤ current.cycleRevenue ∧
      current.strengthRevenue ≤ current.cycleRevenue then "PowerCycle"
  else if current.strengthRevenue ≤ current.barreRevenue then "Barre"
  else "Strength Lab"

/-- Output row of the year-on-year table (`YearOnYearComparison`, with
the `formatGrowth` map flattened into three fields). -/
structure YoYRow where
  trainerName : String
  location : String
  currentYear : YearTotals
  previousYear : YearTotals
  revenueGrowth : ℚ
  sessionGrowth : ℚ
  customerGrowth : ℚ
  topFormat : String
  cycleGrowth : ℚ
  barreGrowth : ℚ
  strengthGrowth : ℚ
deriving DecidableEq

/-- Comparison built from one trainer group (lines 79-146): emitted only
when the trainer has at least two distinct year buckets, comparing the
two most recent ones. -/
def mkComparison (g : TrainerGroup) : Option YoYRow :=
  let years := sortStrs (g.years.map Prod.fst)
  match years.reverse with
  | currentYear :: previousYear :: _ =>
    let current := aggYear ((lookupKey currentYear g.years).getD [])
    let previous := aggYear ((lookupKey previousYear g.years).getD [])
    some
      { trainerName := g.trainerName
        location := g.location
        currentYear := current
        previousYear := previous
        revenueGrowth :=
          if 0 < previous.revenue then
            (current.revenue - previous.revenue) / previous.revenue * 100
          else 0
        sessionGrowth :=
          if 0 < previous.sessions then
            (current.sessions - previous.sessions) / previous.sessions * 100
          else 0
        customerGrowth :=
          if 0 < previous.customers then
            (current.customers - previous.customers) /
              previous.customers * 100 else 0
        topFormat := topFormatOf current
        cycleGrowth :=
          if 0 < previous.cycleRevenue then
            (current.cycleRevenue - previous.cycleRevenue) /
              previous.cycleRevenue * 100 else 0
        barreGrowth :=
          if 0 < previous.barreRevenue then
            (current.barreRevenue - previous.barreRevenue) /
              previous.barreRevenue * 100 else 0
        strengthGrowth :=
          if 0 < previous.strengthRevenue then
            (current.strengthRevenue - previous.strengthRevenue) /
              previous.strengthRevenue * 100 else 0 }
  | _ => none

/-- Output `yearOnYearData` (lines 49-150): one comparison row per trainer
dimension that has at least two distinct year buckets, in trainer-map
insertion order. -/
def yearOnYearData (data : List ProcessedTrainerData) : List YoYRow :=
  ((groupTrainers data).map Prod.snd).filterMap mkComparison

/-- First-occurrence deduplicating append, the way a JS object collects
its keys when values are inserted under possibly repeated keys. -/
def dedupAppend (ks ys : List String) : List String :=
  ys.foldl (fun a y => if y ∈ a then a else a ++ [y]) ks

/-- Number of distinct year buckets a trainer dimension receives from the
input records (first-occurrence fold, matching how the `years` object
collects its keys). -/
def distinctYearsCount (data : List ProcessedTrainerData) (k : String) : ℕ :=
  (dedupAppend []
    ((data.filter (fun t => trainerKey t = k)).map
      (fun t => yearOf t.monthYear))).length

/-- Year-bucket keys stored for the trainer dimension `k` (empty when
the dimension is absent). -/
def ydk (k : String) (acc : List (String × TrainerGroup)) : List String :=
  ((lookupKey k acc).map (fun g => g.years.map Prod.fst)).getD []

/-- Number of input records that survive the hosted-class exclusion and
carry the class-format key `k` (each session record contributes exactly
one to its group's `totalSessions`). -/
def fmtCount (data : List Session) (k : String) : ℕ :=
  (data.filter (fun s => !isHosted s && (classFormat s == k))).length

/-- Accumulated `totalSessions` stored under key `k` (0 when the key is
absent). -/
def tsOfKey (k : String) (l : List (String × ClassAgg)) : ℚ :=
  ((lookupKey k l).map (fun c => c.totalSessions)).getD 0

/-- All numeric fields of a session record are non-negative (the
hypothesis of the `[0, 100]` range claim). -/
def SessNonneg (s : Session) : Prop :=
  0 ≤ qv s.capacity ∧ 0 ≤ qv s.checkedInCount ∧ 0 ≤ qv s.totalPaid ∧
    0 ≤ qv s.bookedCount ∧ 0 ≤ qv s.lateCancelledCount

/-- Bounds the accumulators of a group satisfy when every folded session
is non-negative: all sums are non-negative and the empty-session count
never exceeds the session count. -/
def AggBounds (c : ClassAgg) : Prop :=
  0 ≤ c.totalSessions ∧ 0 ≤ c.emptySessions ∧
    c.emptySessions ≤ c.totalSessions ∧ 0 ≤ c.totalCheckedIn ∧
    0 ≤ c.totalCapacity ∧ 0 ≤ c.totalBooked ∧ 0 ≤ c.totalLateCancelled

/-! ### Concrete records used by witnesses and counterexamples. -/

/-- Ordinary non-hosted session. -/
def sessionA : Session :=
  { cleanedClass := some "Barre 57", classType := none
    capacity := some 12, checkedInCount := some 9, totalPaid := some 5000
    bookedCount := some 10, lateCancelledCount := some 1
    time := "09:00", dayOfWeek := "Monday", trainerName := "Asha"
    location := "Kwality House, Kemps Corner" }

/-- Hosted session (its class format contains `"Hosted"`). -/
def sessionB : Session :=
  { cleanedClass := some "Hosted Event", classType := some "Barre 57"
    capacity := some 20, checkedInCount := some 18, totalPaid := some 9000
    bookedCount := some 19, lateCancelledCount := some 0
    time := "10:00", dayOfWeek := "Monday", trainerName := "Asha"
    location := "Kwality House, Kemps Corner" }

/-- Empty (zero check-ins) non-hosted session of a second format. -/
def sessionC : Session :=
  { cleanedClass := none, classType := some "PowerCycle"
    capacity := some 10, checkedInCount := some 0, totalPaid := some 0
    bookedCount := some 2, lateCancelledCount := some 2
    time := "18:00", dayOfWeek := "Tuesday", trainerName := "Ravi"
    location := "Supreme HQ, Bandra" }

/-- Overbooked session: all numeric fields non-negative, yet 20 attendees
in a class of capacity 10. -/
def sessionOver : Session :=
  { cleanedClass := some "Barre 57", classType := none
    capacity := some 10, checkedInCount := some 20, totalPaid := some 4000
    bookedCount := some 20, lateCancelledCount := some 0
    time := "09:00", dayOfWeek := "Friday", trainerName := "Asha"
    location := "Kwality House, Kemps Corner" }

/-- Monthly payroll cell with a zero baseline. -/
def monthPrev0 : MonthCell := ⟨0, 0, 0, 0, 0, 0, 0, 0, 0⟩

/-- Monthly payroll cell with 2 sessions. -/
def monthPrev2 : MonthCell := ⟨2, 0, 0, 0, 0, 0, 0, 0, 0⟩

/-- Monthly payroll cell with 5 sessions. -/
def monthCur5 : MonthCell := ⟨5, 0, 0, 0, 0, 0, 0, 0, 0⟩

/-- January breakdown cell of a dimension. -/
def mmJan : MMCell := ⟨10, 80, 40000, 0⟩

/-- March breakdown cell of the same dimension (February absent: a data
gap). -/
def mmMar : MMCell := ⟨12, 90, 45000, 0⟩

/-- Payroll record with every optional field absent. -/
def payrollBlank : PayrollData :=
  { teacherId := "T1", teacherName := "Asha", teacherEmail := "a@x.in"
    location := "Kwality House, Kemps Corner"
    monthYear := none, unique := none
    totalSessions := none, totalEmptySessions := none
    totalNonEmptySessions := none, totalCustomers := none, totalPaid := none
    cycleSessions := none, emptyCycleSessions := none
    nonEmptyCycleSessions := none, cycleCustomers := none, cyclePaid := none
    barreSessions := none, emptyBarreSessions := none
    nonEmptyBarreSessions := none, barreCustomers := none, barrePaid := none
    conversion := none, retention := none, converted := none
    retained := none }

/-- Payroll record of trainer Asha for January 2024. -/
def rJan : PayrollData :=
  { payrollBlank with
    monthYear := some "2024-01", totalSessions := some 10
    totalEmptySessions := some 2, totalNonEmptySessions := some 8
    totalCustomers := some 80, totalPaid := some 40000 }

/-- Payroll record of trainer Asha for March 2024 (February absent). -/
def rMar : PayrollData :=
  { payrollBlank with
    monthYear := some "2024-03", totalSessions := some 12
    totalEmptySessions := some 1, totalNonEmptySessions := some 11
    totalCustomers := some 95, totalPaid := some 48000 }

/-- Processed trainer row with all numeric fields zero. -/
def ptdBase : ProcessedTrainerData :=
  { trainerId := "T1", trainerName := "Asha", trainerEmail := "a@x.in"
    location := "Kwality House, Kemps Corner", monthYear := ""
    totalSessions := 0, emptySessions := 0, nonEmptySessions := 0
    totalCustomers := 0, totalPaid := 0
    cycleSessions := 0, emptyCycleSessions := 0, nonEmptyCycleSessions := 0
    cycleCustomers := 0, cycleRevenue := 0
    strengthSessions := 0, emptyStrengthSessions := 0
    nonEmptyStrengthSessions := 0, strengthCustomers := 0
    strengthRevenue := 0
    barreSessions := 0, emptyBarreSessions := 0, nonEmptyBarreSessions := 0
    barreCustomers := 0, barreRevenue := 0
    classAverageExclEmpty := 0, classAverageInclEmpty := 0
    conversion := 0, retention := 0
    uniqueKey := "", newMembers := 0, convertedMembers := 0
    retainedMembers := 0, conversionRate := 0, retentionRate := 0 }

/-- Asha's processed 2023 row. -/
def ptd2023 : ProcessedTrainerData :=
  { ptdBase with
    monthYear := "Feb-2023", totalPaid := 100000
    totalSessions := 200, totalCustomers := 1500 }

/-- Asha's processed 2024 row. -/
def ptd2024 : ProcessedTrainerData :=
  { ptdBase with
    monthYear := "Feb-2024", totalPaid := 125000
    totalSessions := 220, totalCustomers := 1600 }

/-- Two-year input for the year-on-year table. -/
def dataYo : List ProcessedTrainerData := [ptd2023, ptd2024]

/-- Asha's trainer-dimension key. -/
def kYo : String := "Asha-Kwality House, Kemps Corner"

/-- Asha's trainer group as built by `groupTrainers dataYo`. -/
def gYo : TrainerGroup :=
  ⟨"Asha", "Kwality House, Kemps Corner",
    [("2023", [ptd2023]), ("2024", [ptd2024])]⟩

/-- Aggregate of the previous year. -/
def yoyPrev : YearTotals := aggYear [ptd2023]

/-- Aggregate of the current year. -/
def yoyCur : YearTotals := aggYear [ptd2024]

/-- The single year-on-year row `dataYo` produces. -/
def rowYo : YoYRow :=
  { trainerName := "Asha", location := "Kwality House, Kemps Corner"
    currentYear := yoyCur, previousYear := yoyPrev
    revenueGrowth :=
      if 0 < yoyPrev.revenue then
        (yoyCur.revenue - yoyPrev.revenue) / yoyPrev.revenue * 100 else 0
    sessionGrowth :=
      if 0 < yoyPrev.sessions then
        (yoyCur.sessions - yoyPrev.sessions) / yoyPrev.sessions * 100 else 0
    customerGrowth :=
      if 0 < yoyPrev.customers then
        (yoyCur.customers - yoyPrev.customers) / yoyPrev.customers * 100
      else 0
    topFormat := topFormatOf yoyCur
    cycleGrowth :=
      if 0 < yoyPrev.cycleRevenue then
        (yoyCur.cycleRevenue - yoyPrev.cycleRevenue) /
          yoyPrev.cycleRevenue * 100 else 0
    barreGrowth :=
      if 0 < yoyPrev.barreRevenue then
        (yoyCur.barreRevenue - yoyPrev.barreRevenue) /
          yoyPrev.barreRevenue * 100 else 0
    strengthGrowth :=
      if 0 < yoyPrev.strengthRevenue then
        (yoyCur.strengthRevenue - yoyPrev.strengthRevenue) /
          yoyPrev.strengthRevenue * 100 else 0 }

end Insight

namespace Insight

/-! ### Association-map lemmas. -/

theorem sumSnd_nil {V : Type} (F : V → ℚ) : sumSnd F [] = 0 := rfl

theorem sumSnd_cons {V : Type} (F : V → ℚ) (p : String × V)
    (l : List (String × V)) : sumSnd F (p :: l) = F p.2 + sumSnd F l := by
  simp [sumSnd]

theorem lookup_upsert_self {V : Type} (k : String) (init : V) (f : V → V)
    (l : List (String × V)) :
    lookupKey k (upsert k init f l) = some (f ((lookupKey k l).getD init)) := by
  induction l with
  | nil => simp [upsert, lookupKey]
  | cons p rest ih =>
    obtain ⟨k', v⟩ := p
    by_cases h : k' = k
    · subst h; simp [upsert, lookupKey]
    · simp [upsert, lookupKey, h, ih]

theorem lookup_upsert_ne {V : Type} {k₀ k : String} (h : k₀ ≠ k)
    (init : V) (f : V → V) (l : List (String × V)) :
    lookupKey k₀ (upsert k init f l) = lookupKey k₀ l := by
  have h' : ¬k = k₀ := fun e => h e.symm
  induction l with
  | nil => simp [upsert, lookupKey, h']
  | cons p rest ih =>
    obtain ⟨k', v⟩ := p
    by_cases hk : k' = k
    · subst hk
      simp [upsert, lookupKey, h']
    · simp [upsert, lookupKey, hk, ih]

theorem sum_upsert {V : Type} (F : V → ℚ) (d : ℚ) (k : String) (init : V)
    (f : V → V) (l : List (String × V)) (hf : ∀ v, F (f v) = F v + d)
    (h0 : F init = 0) :
    sumSnd F (upsert k init f l) = sumSnd F l + d := by
  induction l with
  | nil => simp [upsert, sumSnd_cons, sumSnd_nil, hf, h0]
  | cons p rest ih =>
    obtain ⟨k', v⟩ := p
    by_cases h : k' = k
    · subst h
      simp [upsert, sumSnd_cons, hf]
      ring
    · simp [upsert, h, sumSnd_cons, ih]
      ring

theorem mem_keys_upsert {V : Type} (k₀ k : String) (init : V) (f : V → V)
    (l : List (String × V)) :
    k₀ ∈ (upsert k init f l).map Prod.fst ↔
      k₀ ∈ l.map Prod.fst ∨ k₀ = k := by
  induction l with
  | nil => simp [upsert, eq_comm]
  | cons p rest ih =>
    obtain ⟨k', v⟩ := p
    by_cases h : k' = k
    · subst h; simp [upsert]
      tauto
    · simp [upsert, h, ih]
      tauto

theorem keys_upsert_of_mem {V : Type} {k : String}
    {l : List (String × V)} (hk : k ∈ l.map Prod.fst) (init : V) (f : V → V) :
    (upsert k init f l).map Prod.fst = l.map Prod.fst := by
  induction l with
  | nil => simp at hk
  | cons p rest ih =>
    obtain ⟨k', v⟩ := p
    rw [List.map_cons] at hk
    by_cases h : k' = k
    · subst h; simp [upsert]
    · have hk' : k ∈ rest.map Prod.fst := by
        rcases List.mem_cons.1 hk with h1 | h1
        · exact absurd h1.symm h
        · exact h1
      simp [upsert, h, ih hk']

theorem keys_upsert_of_not_mem {V : Type} {k : String}
    {l : List (String × V)} (hk : k ∉ l.map Prod.fst) (init : V) (f : V → V) :
    (upsert k init f l).map Prod.fst = l.map Prod.fst ++ [k] := by
  induction l with
  | nil => simp [upsert]
  | cons p rest ih =>
    obtain ⟨k', v⟩ := p
    rw [List.map_cons] at hk
    have hne : ¬k' = k := fun e => hk (by simp [e])
    have hk' : k ∉ rest.map Prod.fst :=
      fun hm => hk (List.mem_cons.2 (Or.inr hm))
    simp [upsert, hne, ih hk']

theorem nodup_keys_upsert {V : Type} (k : String) (init : V) (f : V → V)
    {l : List (String × V)} (h : (l.map Prod.fst).Nodup) :
    ((upsert k init f l).map Prod.fst).Nodup := by
  by_cases hk : k ∈ l.map Prod.fst
  · rw [keys_upsert_of_mem hk]
    exact h
  · rw [keys_upsert_of_not_mem hk]
    simp [List.nodup_append, h, hk]

theorem lookup_eq_none_of_not_mem {V : Type} {k : String}
    {l : List (String × V)} (h : k ∉ l.map Prod.fst) :
    lookupKey k l = none := by
  induction l with
  | nil => rfl
  | cons p rest ih =>
    obtain ⟨k', v⟩ := p
    rw [List.map_cons] at h
    have hne : ¬k' = k := fun e => h (by simp [e])
    have h' : k ∉ rest.map Prod.fst :=
      fun hm => h (List.mem_cons.2 (Or.inr hm))
    simp [lookupKey, hne, ih h']

theorem lookup_some_mem {V : Type} {k : String} {v : V}
    {l : List (String × V)} (h : lookupKey k l = some v) : (k, v) ∈ l := by
  induction l with
  | nil => simp [lookupKey] at h
  | cons p rest ih =>
    obtain ⟨k', v'⟩ := p
    by_cases hk : k' = k
    · subst hk
      simp [lookupKey] at h
      simp [h]
    · simp [lookupKey, hk] at h
      simp [ih h]

theorem sum_map_one {α : Type} (l : List α) :
    (l.map (fun _ => (1 : ℚ))).sum = l.length := by
  induction l with
  | nil => simp
  | cons a l ih => simp [ih]; ring

theorem mem_upsert_pres {V : Type} (P : String → V → Prop) {k : String}
    {init : V} {f : V → V} {l : List (String × V)}
    (hinit : P k (f init)) (hstep : ∀ v, P k v → P k (f v))
    (hl : ∀ p ∈ l, P p.1 p.2) :
    ∀ p ∈ upsert k init f l, P p.1 p.2 := by
  induction l with
  | nil =>
    intro p hp
    simp [upsert] at hp
    subst hp; exact hinit
  | cons q rest ih =>
    obtain ⟨k', v⟩ := q
    intro p hp
    by_cases h : k' = k
    · subst h
      simp [upsert] at hp
      rcases hp with hp | hp
      · subst hp
        exact hstep v (hl (k', v) (by simp))
      · exact hl p (by simp [hp])
    · simp [upsert, h] at hp
      rcases hp with hp | hp
      · subst hp
        exact hl (k', v) (by simp)
      · exact ih (fun q hq => hl q (by simp [hq])) p hp

/-! ### Conservation of accumulator sums over the class-format fold. -/

theorem sum_classFold (F : ClassAgg → ℚ) (d : Session → ℚ)
    (h0 : ∀ k, F (initClassAgg k) = 0)
    (hstep : ∀ s c, F (classStep s c) = F c + d s) :
    ∀ (data : List Session) (acc : List (String × ClassAgg)),
      sumSnd F (data.foldl classFold acc) =
        sumSnd F acc + ((data.filter (fun s => !isHosted s)).map d).sum := by
  intro data
  induction data with
  | nil => intro acc; simp
  | cons s rest ih =>
    intro acc
    rw [List.foldl_cons]
    cases hH : isHosted s with
    | true =>
      rw [ih]
      simp [classFold, hH, List.filter_cons]
    | false =>
      have hfold : classFold acc s =
          upsert (classFormat s) (initClassAgg (classFormat s))
            (classStep s) acc := by
        simp [classFold, hH]
      rw [ih, hfold,
        sum_upsert F (d s) _ _ _ _ (fun v => hstep s v) (h0 _)]
      simp [List.filter_cons, hH]
      ring

/-- C1: every derived ratio field of an aggregated row — fill rate,
show-up rate, utilization rate, cancellation rate, average class size,
average revenue, revenue per attendee, revenue efficiency, empty-session
rate, and the trainer processor's class averages including/excluding
empty sessions — equals exactly `0` whenever its denominator is `0`.
Over the rational-number embedding the computation is total, so no
NaN/Infinity value exists and no division ever throws. -/
theorem derivedRatioFieldsZeroWhenDenominatorZero (c : ClassAgg)
    (r : PayrollData) :
    (c.totalCapacity = 0 → (enrich c).fillRate = 0) ∧
    (c.totalBooked = 0 →
      (enrich c).showUpRate = 0 ∧ (enrich c).cancellationRate = 0) ∧
    (c.totalSessions = 0 →
      (enrich c).avgClassSize = 0 ∧ (enrich c).avgRevenue = 0 ∧
      (enrich c).utilizationRate = 0 ∧ (enrich c).revenueEfficiency = 0 ∧
      (enrich c).emptySessionRate = 0) ∧
    (c.totalCheckedIn = 0 → (enrich c).revenuePerAttendee = 0) ∧
    (qv r.totalNonEmptySessions = 0 →
      (processOne r).classAverageExclEmpty = 0) ∧
    (qv r.totalSessions = 0 → (processOne r).classAverageInclEmpty = 0) := by
  refine ⟨?_, ?_, ?_, ?_, ?_, ?_⟩ <;> intro h <;>
    simp [enrich, processOne, h]

/-- Witness for C1 at a concrete all-zero aggregate and an all-absent
payroll record. -/
theorem derivedRatioFieldsZeroWhenDenominatorZero_witness :
    ((initClassAgg "Barre 57").totalCapacity = 0 ∧
      (enrich (initClassAgg "Barre 57")).fillRate = 0) ∧
    (qv payrollBlank.totalNonEmptySessions = 0 ∧
      (processOne payrollBlank).classAverageExclEmpty = 0) :=
  ⟨⟨rfl,
    (derivedRatioFieldsZeroWhenDenominatorZero (initClassAgg "Barre 57")
      payrollBlank).1 rfl⟩,
   ⟨rfl,
    (derivedRatioFieldsZeroWhenDenominatorZero (initClassAgg "Barre 57")
      payrollBlank).2.2.2.2.1 rfl⟩⟩

/-- C2: for every list of session records, summing each accumulator field
(total sessions, total checked-in, total revenue, total capacity, total
booked) over all emitted class-format groups gives exactly the
corresponding sum over the records that survive the hosted-class
exclusion: the grouping fold loses no record and double-counts none.
(Stated for all record sets; the non-empty ones of the claim are a
special case.) -/
theorem groupingConservesTotals (data : List Session) :
    sumSnd (fun c => c.totalSessions) (groupClassFormats data) =
      ((data.filter (fun s => !isHosted s)).length : ℚ) ∧
    sumSnd (fun c => c.totalCheckedIn) (groupClassFormats data) =
      ((data.filter (fun s => !isHosted s)).map
        (fun s => qv s.checkedInCount)).sum ∧
    sumSnd (fun c => c.totalRevenue) (groupClassFormats data) =
      ((data.filter (fun s => !isHosted s)).map
        (fun s => qv s.totalPaid)).sum ∧
    sumSnd (fun c => c.totalCapacity) (groupClassFormats data) =
      ((data.filter (fun s => !isHosted s)).map
        (fun s => qv s.capacity)).sum ∧
    sumSnd (fun c => c.totalBooked) (groupClassFormats data) =
      ((data.filter (fun s => !isHosted s)).map
        (fun s => qv s.bookedCount)).sum := by
  refine ⟨?_, ?_, ?_, ?_, ?_⟩
  · have h := sum_classFold (fun c => c.totalSessions) (fun _ => 1)
      (fun k => rfl) (fun s c => rfl) data []
    simpa [groupClassFormats, sumSnd_nil, sum_map_one] using h
  · have h := sum_classFold (fun c => c.totalCheckedIn)
      (fun s => qv s.checkedInCount) (fun k => rfl) (fun s c => rfl) data []
    simpa [groupClassFormats, sumSnd_nil] using h
  · have h := sum_classFold (fun c => c.totalRevenue)
      (fun s => qv s.totalPaid) (fun k => rfl) (fun s c => rfl) data []
    simpa [groupClassFormats, sumSnd_nil] using h
  · have h := sum_classFold (fun c => c.totalCapacity)
      (fun s => qv s.capacity) (fun k => rfl) (fun s c => rfl) data []
    simpa [groupClassFormats, sumSnd_nil] using h
  · have h := sum_classFold (fun c => c.totalBooked)
      (fun s => qv s.bookedCount) (fun k => rfl) (fun s c => rfl) data []
    simpa [groupClassFormats, sumSnd_nil] using h

/-! ### Per-key session count through the fold (for the threshold claim). -/

theorem tsOfKey_classFold (k : String) :
    ∀ (data : List Session) (acc : List (String × ClassAgg)),
      tsOfKey k (data.foldl classFold acc) =
        tsOfKey k acc + (fmtCount data k : ℚ) := by
  intro data
  induction data with
  | nil => intro acc; simp [fmtCount]
  | cons s rest ih =>
    intro acc
    rw [List.foldl_cons]
    cases hH : isHosted s with
    | true =>
      rw [ih]
      simp [classFold, hH, fmtCount, List.filter_cons]
    | false =>
      have hfold : classFold acc s =
          upsert (classFormat s) (initClassAgg (classFormat s))
            (classStep s) acc := by
        simp [classFold, hH]
      rw [ih, hfold]
      by_cases hk : classFormat s = k
      · subst hk
        have hts : tsOfKey (classFormat s)
            (upsert (classFormat s) (initClassAgg (classFormat s))
              (classStep s) acc) =
            tsOfKey (classFormat s) acc + 1 := by
          rw [tsOfKey, lookup_upsert_self]
          cases hl : lookupKey (classFormat s) acc with
          | none => simp [tsOfKey, hl, classStep, initClassAgg]
          | some v => simp [tsOfKey, hl, classStep]
        rw [hts]
        simp [fmtCount, List.filter_cons, hH]
        ring
      · have hts : tsOfKey k
            (upsert (classFormat s) (initClassAgg (classFormat s))
              (classStep s) acc) = tsOfKey k acc := by
          rw [tsOfKey, lookup_upsert_ne (fun e => hk e.symm), tsOfKey]
        rw [hts]
        simp [fmtCount, List.filter_cons, hH, hk]

theorem classFormat_invariant :
    ∀ (data : List Session) (acc : List (String × ClassAgg)),
      (∀ p ∈ acc, (p.2 : ClassAgg).classFormat = p.1) →
      ∀ p ∈ data.foldl classFold acc, (p.2 : ClassAgg).classFormat = p.1 := by
  intro data
  induction data with
  | nil => intro acc h; simpa using h
  | cons s rest ih =>
    intro acc h
    rw [List.foldl_cons]
    cases hH : isHosted s with
    | true =>
      simpa [classFold, hH] using ih acc h
    | false =>
      have hfold : classFold acc s =
          upsert (classFormat s) (initClassAgg (classFormat s))
            (classStep s) acc := by
        simp [classFold, hH]
      rw [hfold]
      refine ih _ ?_
      exact mem_upsert_pres
        (fun (k : String) (v : ClassAgg) => v.classFormat = k) rfl
        (fun v hv => hv) h

/-- C3: the minimum-session threshold is judged against the fully folded
group, never against single records: whenever the number of surviving
records of a class format reaches the threshold `N` in total — even if
no single record contributes more than one session — a row for that
format appears in the processed table with exactly that accumulated
count, and the comparison is inclusive (`totalSessions = N` is kept,
since `N ≤ fmtCount` includes equality). -/
theorem thresholdAppliedAfterFullAggregation (data : List Session) (N : ℚ)
    (k : String) (hpos : 0 < fmtCount data k)
    (hN : N ≤ (fmtCount data k : ℚ)) :
    ∃ c ∈ enhancedProcessedData N data,
      c.classFormat = k ∧ c.totalSessions = (fmtCount data k : ℚ) := by
  have hts : tsOfKey k (groupClassFormats data) = (fmtCount data k : ℚ) := by
    have h := tsOfKey_classFold k data []
    simpa [groupClassFormats, tsOfKey, lookupKey] using h
  cases hl : lookupKey k (groupClassFormats data) with
  | none =>
    exfalso
    rw [tsOfKey, hl] at hts
    have h0 : (0 : ℚ) = (fmtCount data k : ℚ) := by simpa using hts
    have hz : fmtCount data k = 0 := by exact_mod_cast h0.symm
    omega
  | some c₀ =>
    have hts₀ : c₀.totalSessions = (fmtCount data k : ℚ) := by
      rw [tsOfKey, hl] at hts
      simpa using hts
    have hmem : (k, c₀) ∈ groupClassFormats data := lookup_some_mem hl
    have hfmt : c₀.classFormat = k := by
      have hinv := classFormat_invariant data [] (by simp) (k, c₀) hmem
      simpa using hinv
    refine ⟨enrich c₀, ?_, by simpa [enrich] using hfmt, by
      simpa [enrich] using hts₀⟩
    apply List.mem_map.2
    refine ⟨c₀, ?_, rfl⟩
    apply List.mem_filter.2
    refine ⟨List.mem_map.2 ⟨(k, c₀), hmem, rfl⟩, ?_⟩
    simpa [hts₀] using hN

/-- Witness for C3: three one-session records of the same format jointly
reach the threshold `3` that none of them meets alone, and the group is
kept (inclusive comparison at exactly `N`). -/
theorem thresholdAppliedAfterFullAggregation_witness :
    0 < fmtCount [sessionA, sessionA, sessionA] "Barre 57" ∧
    (3 : ℚ) ≤ (fmtCount [sessionA, sessionA, sessionA] "Barre 57" : ℚ) ∧
    ∃ c ∈ enhancedProcessedData 3 [sessionA, sessionA, sessionA],
      c.classFormat = "Barre 57" ∧
      c.totalSessions =
        (fmtCount [sessionA, sessionA, sessionA] "Barre 57" : ℚ) :=
  ⟨by decide, by decide,
   thresholdAppliedAfterFullAggregation [sessionA, sessionA, sessionA] 3
     "Barre 57" (by decide) (by decide)⟩

/-! ### Accumulator bounds under non-negative inputs. -/

theorem aggBounds_classStep {s : Session} {c : ClassAgg}
    (hs : SessNonneg s) (hc : AggBounds c) :
    AggBounds (classStep s c) := by
  obtain ⟨hcap, hchk, hpaid, hbook, hlate⟩ := hs
  obtain ⟨h1, h2, h3, h4, h5, h6, h7⟩ := hc
  by_cases hz : qv s.checkedInCount = 0 <;>
    exact ⟨by simp [classStep]; linarith,
      by simp [classStep, hz]; linarith,
      by simp [classStep, hz]; linarith,
      by simp [classStep]; linarith,
      by simp [classStep]; linarith,
      by simp [classStep]; linarith,
      by simp [classStep]; linarith⟩

theorem aggBounds_invariant :
    ∀ (data : List Session) (acc : List (String × ClassAgg)),
      (∀ s ∈ data, SessNonneg s) →
      (∀ p ∈ acc, AggBounds (p.2 : ClassAgg)) →
      ∀ p ∈ data.foldl classFold acc, AggBounds (p.2 : ClassAgg) := by
  intro data
  induction data with
  | nil => intro acc _ h; simpa using h
  | cons s rest ih =>
    intro acc hnn h
    rw [List.foldl_cons]
    have hs : SessNonneg s := hnn s (by simp)
    have hrest : ∀ t ∈ rest, SessNonneg t := fun t ht => hnn t (by simp [ht])
    cases hH : isHosted s with
    | true =>
      simpa [classFold, hH] using ih acc hrest h
    | false =>
      have hfold : classFold acc s =
          upsert (classFormat s) (initClassAgg (classFormat s))
            (classStep s) acc := by
        simp [classFold, hH]
      rw [hfold]
      refine ih _ hrest ?_
      refine mem_upsert_pres
        (fun (_ : String) (v : ClassAgg) => AggBounds v) ?_ ?_ h
      · refine aggBounds_classStep hs ?_
        refine ⟨?_, ?_, ?_, ?_, ?_, ?_, ?_⟩ <;> simp [initClassAgg]
      · exact fun v hv => aggBounds_classStep hs hv

/-- C5 (corrected): for groups aggregated from non-negative session
records, `fillRate`, `cancellationRate` and `utilizationRate` are
non-negative and exactly `0` when their denominators are `0`;
`utilizationRate` always lies within `[0, 100]` (the aggregation itself
guarantees `emptySessions ≤ totalSessions`); but `fillRate` (resp.
`cancellationRate`) is bounded by `100` only under the extra hypothesis
that accumulated check-ins do not exceed accumulated capacity (resp.
late cancellations do not exceed bookings) — non-negativity of the
inputs alone does not give the upper bound. -/
theorem rateBoundsOnProcessedRows (data : List Session) (N : ℚ)
    (hnn : ∀ s ∈ data, SessNonneg s) (c : ClassAgg)
    (hc : c ∈ enhancedProcessedData N data) :
    0 ≤ c.fillRate ∧ 0 ≤ c.cancellationRate ∧
    0 ≤ c.utilizationRate ∧ c.utilizationRate ≤ 100 ∧
    (c.totalCheckedIn ≤ c.totalCapacity → c.fillRate ≤ 100) ∧
    (c.totalLateCancelled ≤ c.totalBooked → c.cancellationRate ≤ 100) ∧
    (c.totalCapacity = 0 → c.fillRate = 0) ∧
    (c.totalBooked = 0 → c.cancellationRate = 0) ∧
    (c.totalSessions = 0 → c.utilizationRate = 0) := by
  obtain ⟨c₀, hc₀f, rfl⟩ := List.mem_map.1 hc
  obtain ⟨hc₀v, _⟩ := List.mem_filter.1 hc₀f
  obtain ⟨p, hp, rfl⟩ := List.mem_map.1 hc₀v
  have hb : AggBounds p.2 :=
    aggBounds_invariant data [] hnn (by simp) p hp
  obtain ⟨h1, h2, h3, h4, h5, h6, h7⟩ := hb
  refine ⟨?_, ?_, ?_, ?_, ?_, ?_, ?_, ?_, ?_⟩
  · show 0 ≤ (enrich p.2).fillRate
    simp only [enrich]
    split_ifs with h
    · exact mul_nonneg (div_nonneg h4 h.le) (by norm_num)
    · exact le_refl 0
  · show 0 ≤ (enrich p.2).cancellationRate
    simp only [enrich]
    split_ifs with h
    · exact mul_nonneg (div_nonneg h7 h.le) (by norm_num)
    · exact le_refl 0
  · show 0 ≤ (enrich p.2).utilizationRate
    simp only [enrich]
    split_ifs with h
    · exact mul_nonneg (div_nonneg (by linarith) h.le) (by norm_num)
    · exact le_refl 0
  · show (enrich p.2).utilizationRate ≤ 100
    simp only [enrich]
    split_ifs with h
    · have hd : (p.2.totalSessions - p.2.emptySessions) / p.2.totalSessions
          ≤ 1 := (div_le_one h).2 (by linarith)
      linarith
    · norm_num
  · show p.2.totalCheckedIn ≤ p.2.totalCapacity →
      (enrich p.2).fillRate ≤ 100
    intro hle
    simp only [enrich]
    split_ifs with h
    · have hd : p.2.totalCheckedIn / p.2.totalCapacity ≤ 1 :=
        (div_le_one h).2 hle
      linarith
    · norm_num
  · show p.2.totalLateCancelled ≤ p.2.totalBooked →
      (enrich p.2).cancellationRate ≤ 100
    intro hle
    simp only [enrich]
    split_ifs with h
    · have hd : p.2.totalLateCancelled / p.2.totalBooked ≤ 1 :=
        (div_le_one h).2 hle
      linarith
    · norm_num
  · show p.2.totalCapacity = 0 → (enrich p.2).fillRate = 0
    intro h0
    simp [enrich, h0]
  · show p.2.totalBooked = 0 → (enrich p.2).cancellationRate = 0
    intro h0
    simp [enrich, h0]
  · show p.2.totalSessions = 0 → (enrich p.2).utilizationRate = 0
    intro h0
    simp [enrich, h0]

/-- Counterexample for C5 as stated: the overbooked session has only
non-negative numeric fields, yet the single aggregated row of its format
has `fillRate = 200`, outside `[0, 100]`. -/
theorem rateBoundsOnProcessedRows_counterexample :
    SessNonneg sessionOver ∧
    (enhancedProcessedData 1 [sessionOver]).map (fun c => c.fillRate) =
      [200] ∧
    ¬(200 : ℚ) ≤ 100 := by
  refine ⟨by norm_num [SessNonneg, qv, sessionOver], ?_, by norm_num⟩
  have hH : isHosted sessionOver = false := by decide
  have hF : classFormat sessionOver = "Barre 57" := by decide
  simp only [enhancedProcessedData, groupClassFormats, List.foldl_cons,
    List.foldl_nil, classFold, hH, Bool.false_eq_true, if_false, hF, upsert]
  norm_num [initClassAgg, classStep, enrich, qv, sessionOver]

/-- Witness for C5 (corrected) at a concrete one-session table. -/
theorem rateBoundsOnProcessedRows_witness :
    (∀ s ∈ [sessionA], SessNonneg s) ∧
    enrich (classStep sessionA (initClassAgg "Barre 57")) ∈
      enhancedProcessedData 1 [sessionA] ∧
    0 ≤ (enrich (classStep sessionA (initClassAgg "Barre 57"))).fillRate ∧
    (enrich (classStep sessionA (initClassAgg "Barre 57"))).utilizationRate
      ≤ 100 := by
  have hnn : ∀ s ∈ [sessionA], SessNonneg s := by
    norm_num [SessNonneg, qv, sessionA]
  have hmem : enrich (classStep sessionA (initClassAgg "Barre 57")) ∈
      enhancedProcessedData 1 [sessionA] := by
    have hH : isHosted sessionA = false := by decide
    have hF : classFormat sessionA = "Barre 57" := by decide
    simp only [enhancedProcessedData, groupClassFormats, List.foldl_cons,
      List.foldl_nil, classFold, hH, Bool.false_eq_true, if_false, hF, upsert]
    norm_num [initClassAgg, classStep, qv, sessionA]
  exact ⟨hnn, hmem,
    (rateBoundsOnProcessedRows [sessionA] 1 hnn _ hmem).1,
    (rateBoundsOnProcessedRows [sessionA] 1 hnn _ hmem).2.2.2.1⟩

/-! ### Order facts about the JS string sort. -/

theorem charListLt_irrefl : ∀ l : List Char, charListLt l l = false := by
  intro l
  induction l with
  | nil => rfl
  | cons a as ih => simp [charListLt, ih]

theorem charListLt_asymm :
    ∀ l₁ l₂ : List Char, charListLt l₁ l₂ = true → charListLt l₂ l₁ = false := by
  intro l₁
  induction l₁ with
  | nil =>
    intro l₂ h
    cases l₂ with
    | nil => simp [charListLt] at h
    | cons b bs => rfl
  | cons a as ih =>
    intro l₂ h
    cases l₂ with
    | nil => simp [charListLt] at h
    | cons b bs =>
      simp [charListLt] at h ⊢
      rcases h with h | ⟨he, hrec⟩
      · refine ⟨le_of_lt h, ?_⟩
        intro he
        subst he
        exact absurd h (lt_irrefl b)
      · subst he
        exact ⟨le_refl a, fun _ => ih bs hrec⟩

theorem strLtB_irrefl (s : String) : strLtB s s = false :=
  charListLt_irrefl s.toList

theorem strLtB_asymm {s t : String} (h : strLtB s t = true) :
    strLtB t s = false :=
  charListLt_asymm s.toList t.toList h

theorem strLtB_ne {s t : String} (h : strLtB s t = true) : s ≠ t := by
  intro e
  subst e
  exact absurd h (by simp [strLtB_irrefl])

/-- C6 (corrected): the two month-over-month delta implementations
disagree with the claim's single rule.  `MultiMetricMonthlyTrendsTable`
does emit a concrete number — for a dimension with exactly the two
(possibly non-adjacent) months `m₁ < m₂` present, the change is
`(v₂ − v₁)/v₁ × 100` when `v₁ > 0` and `0` otherwise — but
`getMonthTrend` returns `null` (not `0`) whenever either month is
missing, the previous value is `0`, or the percentage change is smaller
than `0.1` in absolute value, and only otherwise returns the formula. -/
theorem momDeltaBehaviour (cur prev : MonthCell) (metric : String)
    (f : MMCell → ℚ) (m₁ m₂ : String) (c₁ c₂ : MMCell) :
    (getMonthTrend none (some prev) metric = none) ∧
    (getMonthTrend (some cur) none metric = none) ∧
    (monthField prev metric = 0 →
      getMonthTrend (some cur) (some prev) metric = none) ∧
    (monthField prev metric ≠ 0 →
      (1 / 10 : ℚ) ≤
        |(monthField cur metric - monthField prev metric) /
            monthField prev metric * 100| →
      getMonthTrend (some cur) (some prev) metric =
        some ((monthField cur metric - monthField prev metric) /
          monthField prev metric * 100)) ∧
    (monthField prev metric ≠ 0 →
      |(monthField cur metric - monthField prev metric) /
          monthField prev metric * 100| < 1 / 10 →
      getMonthTrend (some cur) (some prev) metric = none) ∧
    (strLtB m₁ m₂ = true →
      momOf f [(m₁, c₁), (m₂, c₂)] =
        if 0 < f c₁ then (f c₂ - f c₁) / f c₁ * 100 else 0) := by
  refine ⟨rfl, rfl, ?_, ?_, ?_, ?_⟩
  · intro h
    simp only [getMonthTrend]
    rw [if_pos h]
  · intro h hge
    simp only [getMonthTrend]
    rw [if_neg h, if_neg (not_lt.2 hge)]
  · intro h hlt
    simp only [getMonthTrend]
    rw [if_neg h, if_pos hlt]
  · intro hlt
    have hba : strLtB m₂ m₁ = false := strLtB_asymm hlt
    have hne : ¬m₁ = m₂ := strLtB_ne hlt
    simp [momOf, sortStrs, insertStr, hba, lookupKey, hne]

/-- Counterexample for C6 as stated: with a prior-period value of `0`,
`getMonthTrend` returns `null` where the claim demands the concrete
number `0`. -/
theorem momDeltaBehaviour_counterexample :
    getMonthTrend (some monthCur5) (some monthPrev0) "totalSessions" =
      none ∧
    (none : Option ℚ) ≠ some 0 := by
  constructor
  · simp [getMonthTrend, monthField, monthPrev0]
  · simp

/-- Witness for C6 (corrected): a 2-vs-5-session pair yields `some 150`
from `getMonthTrend`, and the two-month breakdown with a gap yields the
guarded formula from the multi-metric table. -/
theorem momDeltaBehaviour_witness :
    monthField monthPrev2 "totalSessions" ≠ 0 ∧
    (1 / 10 : ℚ) ≤
      |(monthField monthCur5 "totalSessions" -
          monthField monthPrev2 "totalSessions") /
        monthField monthPrev2 "totalSessions" * 100| ∧
    getMonthTrend (some monthCur5) (some monthPrev2) "totalSessions" =
      some ((monthField monthCur5 "totalSessions" -
          monthField monthPrev2 "totalSessions") /
        monthField monthPrev2 "totalSessions" * 100) ∧
    strLtB "2024-01" "2024-03" = true ∧
    momOf (fun c => c.sessions) [("2024-01", mmJan), ("2024-03", mmMar)] =
      if 0 < mmJan.sessions then
        (mmMar.sessions - mmJan.sessions) / mmJan.sessions * 100 else 0 := by
  have h1 : monthField monthPrev2 "totalSessions" ≠ 0 := by
    norm_num [monthField, monthPrev2]
  have h2 : (1 / 10 : ℚ) ≤
      |(monthField monthCur5 "totalSessions" -
          monthField monthPrev2 "totalSessions") /
        monthField monthPrev2 "totalSessions" * 100| := by
    norm_num [monthField, monthPrev2, monthCur5]
  refine ⟨h1, h2, ?_, by decide, ?_⟩
  · exact (momDeltaBehaviour monthCur5 monthPrev2 "totalSessions"
      (fun c => c.sessions) "2024-01" "2024-03" mmJan mmMar).2.2.2.1 h1 h2
  · exact (momDeltaBehaviour monthCur5 monthPrev2 "totalSessions"
      (fun c => c.sessions) "2024-01" "2024-03" mmJan mmMar).2.2.2.2.2
      (by decide)

/-- C7 (corrected): `MultiMetricMonthlyTrendsTable` does compare the two
most-recent months *present* for the dimension — whatever the last two
entries of the sorted present-month list are, adjacent on the calendar
or not, their cells are the ones compared — but
`ImprovedClassAttendancePayrollTable` instead looks up the literal
calendar-previous month and leaves the trend block empty when that month
has no data (see the counterexample). -/
theorem momComparesMostRecentPresent (f : MMCell → ℚ)
    (b : List (String × MMCell)) (pre : List String) (m₁ m₂ : String)
    (c₁ c₂ : MMCell) (hsort : sortStrs (b.map Prod.fst) = pre ++ [m₁, m₂])
    (h₁ : lookupKey m₁ b = some c₁) (h₂ : lookupKey m₂ b = some c₂) :
    momOf f b = if 0 < f c₁ then (f c₂ - f c₁) / f c₁ * 100 else 0 := by
  simp only [momOf, hsort, List.reverse_append]
  simp [h₁, h₂]

/-- Counterexample for C7 as stated: the trainer dimension has data in
January and March 2024 (two periods), yet the improved payroll table
emits no month-over-month comparison for either row — the March row
looks up February, finds nothing, and keeps its empty trend block
instead of comparing against January. -/
theorem momComparesMostRecentPresent_counterexample :
    (improvedResults [rJan, rMar]).map
        (fun r => (r.monthYear, r.trends.isSome)) =
      [("2024-01", false), ("2024-03", false)] := by
  have h1 : prevMonthKeyOf "2024-01" = "2023-12" := by decide
  have h2 : prevMonthKeyOf "2024-03" = "2024-02" := by decide
  simp [improvedResults, groupImproved, ipKey, ipInit, ipStep, upsert,
    lookupKey, rJan, rMar, payrollBlank, ipGo, ipDerive, h1, h2,
    List.find?, qv]

/-- Witness for C7 (corrected) on the concrete gapped breakdown: January
and March are the two most-recent present months, and they are the ones
compared. -/
theorem momComparesMostRecentPresent_witness :
    sortStrs ([("2024-01", mmJan), ("2024-03", mmMar)].map Prod.fst) =
      [] ++ ["2024-01", "2024-03"] ∧
    lookupKey "2024-01" [("2024-01", mmJan), ("2024-03", mmMar)] =
      some mmJan ∧
    lookupKey "2024-03" [("2024-01", mmJan), ("2024-03", mmMar)] =
      some mmMar ∧
    momOf (fun c => c.attendance)
        [("2024-01", mmJan), ("2024-03", mmMar)] =
      if 0 < mmJan.attendance then
        (mmMar.attendance - mmJan.attendance) / mmJan.attendance * 100
      else 0 :=
  ⟨by decide, by decide, by decide,
   momComparesMostRecentPresent (fun c => c.attendance)
     [("2024-01", mmJan), ("2024-03", mmMar)] [] "2024-01" "2024-03"
     mmJan mmMar (by decide) (by decide) (by decide)⟩

/-- C9 (corrected): no loud failure exists.  An unknown metric name falls
through `getMetricValue`'s `default` branch and silently returns `0`,
and an unknown grouping dimension falls through the view `switch` and
silently lands every record in the `'Unknown'` group; neither function
can throw (both are total). -/
theorem unknownConfigSilentlyDefaults :
    (∀ (d : ProcessedTrainerData) (metric : String),
      metric ∉ knownMetrics → getMetricValue d metric = 0) ∧
    (∀ (view : String) (s : Session),
      view ∉ knownTrendViews → dimensionKeyOf view s = "Unknown") := by
  constructor
  · intro d metric h
    have hne : ∀ n ∈ knownMetrics, metric ≠ n := fun n hn e => h (e ▸ hn)
    simp only [getMetricValue]
    rw [if_neg (hne _ (by decide)), if_neg (hne _ (by decide)),
      if_neg (hne _ (by decide)), if_neg (hne _ (by decide)),
      if_neg (hne _ (by decide)), if_neg (hne _ (by decide)),
      if_neg (hne _ (by decide)), if_neg (hne _ (by decide)),
      if_neg (hne _ (by decide)), if_neg (hne _ (by decide)),
      if_neg (hne _ (by decide)), if_neg (hne _ (by decide)),
      if_neg (hne _ (by decide)), if_neg (hne _ (by decide)),
      if_neg (hne _ (by decide)), if_neg (hne _ (by decide)),
      if_neg (hne _ (by decide)), if_neg (hne _ (by decide)),
      if_neg (hne _ (by decide)), if_neg (hne _ (by decide))]
  · intro view s h
    have hne : ∀ n ∈ knownTrendViews, view ≠ n := fun n hn e => h (e ▸ hn)
    simp only [dimensionKeyOf]
    rw [if_neg (hne _ (by decide)), if_neg (hne _ (by decide)),
      if_neg (hne _ (by decide)), if_neg (hne _ (by decide)),
      if_neg (hne _ (by decide))]

/-- Counterexample for C9 as stated: at a concrete unknown metric and a
concrete unknown view no error is raised — the calls return the default
`0` and the `'Unknown'` group. -/
theorem unknownConfigSilentlyDefaults_counterexample :
    getMetricValue (processOne payrollBlank) "notAMetric" = 0 ∧
    dimensionKeyOf "notAView" sessionA = "Unknown" := by
  constructor
  · simp [getMetricValue]
  · simp [dimensionKeyOf]

/-- Witness for C9 (corrected). -/
theorem unknownConfigSilentlyDefaults_witness :
    "notAMetric" ∉ knownMetrics ∧
    getMetricValue (processOne payrollBlank) "notAMetric" = 0 ∧
    "notAView" ∉ knownTrendViews ∧
    dimensionKeyOf "notAView" sessionA = "Unknown" :=
  ⟨by decide,
   unknownConfigSilentlyDefaults.1 (processOne payrollBlank) "notAMetric"
     (by decide),
   by decide,
   unknownConfigSilentlyDefaults.2 "notAView" sessionA (by decide)⟩

/-! ### Year-on-year machinery. -/

theorem insertStr_length (s : String) :
    ∀ l : List String, (insertStr s l).length = l.length + 1 := by
  intro l
  induction l with
  | nil => rfl
  | cons t ts ih =>
    by_cases h : strLtB t s = true
    · simp [insertStr, h, ih]
    · simp [insertStr, h]

theorem sortStrs_length : ∀ l : List String, (sortStrs l).length = l.length := by
  intro l
  induction l with
  | nil => rfl
  | cons s ss ih => simp [sortStrs, insertStr_length, ih]

theorem trainerKey_fold_invariant :
    ∀ (data : List ProcessedTrainerData)
      (acc : List (String × TrainerGroup)),
      (∀ p ∈ acc,
        (p.2 : TrainerGroup).trainerName ++ "-" ++ p.2.location = p.1) →
      ∀ p ∈ data.foldl tgFold acc,
        (p.2 : TrainerGroup).trainerName ++ "-" ++ p.2.location = p.1 := by
  intro data
  induction data with
  | nil => intro acc h; simpa using h
  | cons t rest ih =>
    intro acc h
    rw [List.foldl_cons]
    refine ih _ ?_
    refine mem_upsert_pres
      (fun (k : String) (g : TrainerGroup) =>
        g.trainerName ++ "-" ++ g.location = k) rfl (fun g hg => hg) h

theorem nodup_keys_fold :
    ∀ (data : List ProcessedTrainerData)
      (acc : List (String × TrainerGroup)),
      (acc.map Prod.fst).Nodup →
      (((data.foldl tgFold acc).map Prod.fst)).Nodup := by
  intro data
  induction data with
  | nil => intro acc h; simpa using h
  | cons t rest ih =>
    intro acc h
    rw [List.foldl_cons]
    exact ih _ (nodup_keys_upsert _ _ _ h)

theorem ydk_fold (k : String) :
    ∀ (data : List ProcessedTrainerData)
      (acc : List (String × TrainerGroup)),
      ydk k (data.foldl tgFold acc) =
        dedupAppend (ydk k acc)
          ((data.filter (fun t => trainerKey t = k)).map
            (fun t => yearOf t.monthYear)) := by
  intro data
  induction data with
  | nil => intro acc; simp [dedupAppend]
  | cons t rest ih =>
    intro acc
    rw [List.foldl_cons]
    by_cases hk : trainerKey t = k
    · have hydk : ydk k (tgFold acc t) =
          if yearOf t.monthYear ∈ ydk k acc then ydk k acc
          else ydk k acc ++ [yearOf t.monthYear] := by
        rw [tgFold, hk]
        cases hl : lookupKey k acc with
        | none =>
          simp [ydk, lookup_upsert_self, hl, tgStep, tgInit, upsert]
        | some g =>
          by_cases hy : yearOf t.monthYear ∈ g.years.map Prod.fst
          · simp [ydk, lookup_upsert_self, hl, tgStep,
              keys_upsert_of_mem hy, hy]
          · simp [ydk, lookup_upsert_self, hl, tgStep,
              keys_upsert_of_not_mem hy, hy]
      rw [ih, hydk]
      simp only [List.filter_cons, hk, List.map_cons]
      by_cases hy : yearOf t.monthYear ∈ ydk k acc <;>
        simp [dedupAppend, List.foldl_cons, hy]
    · have hydk : ydk k (tgFold acc t) = ydk k acc := by
        rw [tgFold, ydk, lookup_upsert_ne (fun e => hk e.symm), ydk]
      rw [ih, hydk]
      simp [List.filter_cons, hk]

theorem mkComparison_isSome_iff (g : TrainerGroup) :
    (mkComparison g).isSome = true ↔ 2 ≤ g.years.length := by
  have hlen : (sortStrs (g.years.map Prod.fst)).reverse.length =
      g.years.length := by
    simp [sortStrs_length]
  rcases hrev : (sortStrs (g.years.map Prod.fst)).reverse
    with _ | ⟨a, _ | ⟨b, t⟩⟩
  · rw [hrev] at hlen
    simp at hlen
    simp [mkComparison, hrev, ← hlen]
  · rw [hrev] at hlen
    simp at hlen
    simp [mkComparison, hrev, ← hlen]
  · rw [hrev] at hlen
    simp at hlen
    constructor
    · intro _
      omega
    · intro _
      simp [mkComparison, hrev]

theorem mkComparison_fields {g : TrainerGroup} {r : YoYRow}
    (h : mkComparison g = some r) :
    r.trainerName = g.trainerName ∧ r.location = g.location ∧
    (0 < r.previousYear.revenue →
      r.revenueGrowth =
        (r.currentYear.revenue - r.previousYear.revenue) /
          r.previousYear.revenue * 100) := by
  rcases hrev : (sortStrs (g.years.map Prod.fst)).reverse
    with _ | ⟨a, _ | ⟨b, t⟩⟩ <;>
    simp [mkComparison, hrev] at h
  obtain rfl := h.symm
  refine ⟨rfl, rfl, ?_⟩
  intro h0
  simp only at h0 ⊢
  rw [if_pos h0]

theorem count_yoy_rows (k : String) :
    ∀ gs : List (String × TrainerGroup),
      (gs.map Prod.fst).Nodup →
      (∀ p ∈ gs,
        (p.2 : TrainerGroup).trainerName ++ "-" ++ p.2.location = p.1) →
      (((gs.map Prod.snd).filterMap mkComparison).filter
          (fun r => r.trainerName ++ "-" ++ r.location == k)).length =
        (match lookupKey k gs with
         | some g => if (mkComparison g).isSome then 1 else 0
         | none => 0) := by
  intro gs
  induction gs with
  | nil => simp [lookupKey]
  | cons p rest ih =>
    obtain ⟨k₀, g₀⟩ := p
    intro hnd hinv
    rw [List.map_cons] at hnd
    have hk₀ : k₀ ∉ rest.map Prod.fst := (List.nodup_cons.1 hnd).1
    have hnd' : (rest.map Prod.fst).Nodup := (List.nodup_cons.1 hnd).2
    have hinv' : ∀ q ∈ rest,
        (q.2 : TrainerGroup).trainerName ++ "-" ++ q.2.location = q.1 :=
      fun q hq => hinv q (by simp [hq])
    have hkey : g₀.trainerName ++ "-" ++ g₀.location = k₀ := by
      simpa using hinv (k₀, g₀) (by simp)
    rw [List.map_cons, List.filterMap_cons]
    cases hmk : mkComparison g₀ with
    | none =>
      rw [ih hnd' hinv']
      by_cases hkk : k₀ = k
      · subst hkk
        rw [lookup_eq_none_of_not_mem hk₀]
        simp [lookupKey, hmk]
      · simp [lookupKey, hkk]
    | some r =>
      have hr : r.trainerName ++ "-" ++ r.location = k₀ := by
        obtain ⟨h1, h2, _⟩ := mkComparison_fields hmk
        rw [h1, h2, hkey]
      by_cases hkk : k₀ = k
      · subst hkk
        have hrest := ih hnd' hinv'
        rw [lookup_eq_none_of_not_mem hk₀] at hrest
        have hrest0 : ((List.filterMap mkComparison
            (List.map Prod.snd rest)).filter
              (fun r => r.trainerName ++ "-" ++ r.location == k₀)).length
            = 0 := by
          simpa using hrest
        have hcond : (r.trainerName ++ "-" ++ r.location == k₀) = true := by
          simp [hr]
        rw [List.filter_cons, hcond]
        simp [List.length_cons, hrest0, lookupKey, hmk]
        intro a x x₁ hmem hcmp hkey'
        have hfil : a ∈ (List.filterMap mkComparison
            (List.map Prod.snd rest)).filter
              (fun r => r.trainerName ++ "-" ++ r.location == k₀) := by
          apply List.mem_filter.2
          refine ⟨List.mem_filterMap.2
            ⟨x₁, List.mem_map.2 ⟨(x, x₁), hmem, rfl⟩, hcmp⟩, by simp [hkey']⟩
        rw [List.length_eq_zero] at hrest0
        rw [hrest0] at hfil
        simp at hfil
      · have hrest := ih hnd' hinv'
        have hcondF : (r.trainerName ++ "-" ++ r.location == k) = false := by
          rw [hr]
          simp [hkk]
        rw [List.filter_cons, hcondF]
        simp only [Bool.false_eq_true, if_false]
        rw [hrest]
        simp [lookupKey, hkk]

/-- C8: a trainer + location dimension produces a year-on-year row if
and only if its records span at least two distinct year buckets — a
dimension with a single year is absent from the output (not
zero-filled), a dimension with two or more years yields exactly one
row — and every emitted row's revenue growth equals
`(currentYearRevenue − previousYearRevenue) / previousYearRevenue × 100`
whenever the previous year's revenue is positive. -/
theorem yoyRowIffTwoDistinctYears (data : List ProcessedTrainerData)
    (k : String) :
    (((yearOnYearData data).filter
        (fun r => r.trainerName ++ "-" ++ r.location == k)).length =
      if 2 ≤ distinctYearsCount data k then 1 else 0) ∧
    ∀ r ∈ yearOnYearData data, 0 < r.previousYear.revenue →
      r.revenueGrowth =
        (r.currentYear.revenue - r.previousYear.revenue) /
          r.previousYear.revenue * 100 := by
  constructor
  · have hnd : ((groupTrainers data).map Prod.fst).Nodup := by
      simpa [groupTrainers] using nodup_keys_fold data [] (by simp)
    have hinv : ∀ p ∈ groupTrainers data,
        (p.2 : TrainerGroup).trainerName ++ "-" ++ p.2.location = p.1 := by
      simpa [groupTrainers] using
        trainerKey_fold_invariant data [] (by simp)
    have hcount := count_yoy_rows k (groupTrainers data) hnd hinv
    have hydk : ydk k (groupTrainers data) =
        dedupAppend []
          ((data.filter (fun t => trainerKey t = k)).map
            (fun t => yearOf t.monthYear)) := by
      simpa [groupTrainers, ydk, lookupKey] using ydk_fold k data []
    have hdl : distinctYearsCount data k =
        (ydk k (groupTrainers data)).length := by
      rw [hydk]
      rfl
    rw [yearOnYearData, hcount]
    cases hl : lookupKey k (groupTrainers data) with
    | none =>
      have h0 : distinctYearsCount data k = 0 := by
        rw [hdl]
        simp [ydk, hl]
      rw [h0]
      simp
    | some g =>
      have hky : distinctYearsCount data k = g.years.length := by
        rw [hdl]
        simp [ydk, hl]
      rw [hky]
      show (if (mkComparison g).isSome = true then 1 else 0) =
        if 2 ≤ g.years.length then 1 else 0
      by_cases h2 : 2 ≤ g.years.length
      · rw [if_pos ((mkComparison_isSome_iff g).2 h2), if_pos h2]
      · rw [if_neg (fun hs => h2 ((mkComparison_isSome_iff g).1 hs)),
          if_neg h2]
  · intro r hr hpos
    rw [yearOnYearData] at hr
    obtain ⟨g, _, hcmp⟩ := List.mem_filterMap.1 hr
    exact (mkComparison_fields hcmp).2.2 hpos

/-- Witness for C8: Asha has records in 2023 and 2024, hence exactly one
year-on-year row, whose revenue growth is the guarded formula. -/
theorem yoyRowIffTwoDistinctYears_witness :
    rowYo ∈ yearOnYearData dataYo ∧ 0 < rowYo.previousYear.revenue ∧
    rowYo.revenueGrowth =
      (rowYo.currentYear.revenue - rowYo.previousYear.revenue) /
        rowYo.previousYear.revenue * 100 ∧
    ((yearOnYearData dataYo).filter
        (fun r => r.trainerName ++ "-" ++ r.location == kYo)).length =
      if 2 ≤ distinctYearsCount dataYo kYo then 1 else 0 := by
  have hg : groupTrainers dataYo = [(kYo, gYo)] := by decide
  have hsorted : sortStrs (gYo.years.map Prod.fst) = ["2023", "2024"] := by
    decide
  have hcmp : mkComparison gYo = some rowYo := by
    simp only [mkComparison, hsorted, List.reverse_cons, List.reverse_nil,
      List.nil_append, List.cons_append, List.singleton_append]
    simp [gYo, lookupKey, rowYo, yoyCur, yoyPrev]
  have hyo : yearOnYearData dataYo = [rowYo] := by
    rw [yearOnYearData, hg]
    simp [hcmp]
  have hmem : rowYo ∈ yearOnYearData dataYo := by
    rw [hyo]
    simp
  have hpos : 0 < rowYo.previousYear.revenue := by
    norm_num [rowYo, yoyPrev, aggYear, ptd2023, ptdBase]
  exact ⟨hmem, hpos,
    (yoyRowIffTwoDistinctYears dataYo kYo).2 rowYo hmem hpos,
    (yoyRowIffTwoDistinctYears dataYo kYo).1⟩

/-- C4: a session whose class-format string (`cleanedClass`, falling back
to `classType`) contains the case-insensitive substring `"hosted"` is
dropped before grouping: removing it from any position of the input
changes neither the grouped map nor the processed table, for every
threshold. -/
theorem hostedSessionContributesNothing (s : Session)
    (hs : isHosted s = true) (l₁ l₂ : List Session) :
    groupClassFormats (l₁ ++ s :: l₂) = groupClassFormats (l₁ ++ l₂) ∧
    ∀ minSessions : ℚ,
      enhancedProcessedData minSessions (l₁ ++ s :: l₂) =
        enhancedProcessedData minSessions (l₁ ++ l₂) := by
  have hg : groupClassFormats (l₁ ++ s :: l₂) =
      groupClassFormats (l₁ ++ l₂) := by
    simp [groupClassFormats, List.foldl_append, List.foldl_cons,
      classFold, hs]
  exact ⟨hg, fun minSessions => by simp [enhancedProcessedData, hg]⟩

/-- Witness for C4: dropping the concrete `"Hosted Event"` session from
the middle of a three-session list leaves the grouping untouched. -/
theorem hostedSessionContributesNothing_witness :
    isHosted sessionB = true ∧
    groupClassFormats [sessionA, sessionB, sessionC] =
      groupClassFormats [sessionA, sessionC] :=
  ⟨by decide,
   (hostedSessionContributesNothing sessionB (by decide)
      [sessionA] [sessionC]).1⟩

/-- C10: every row produced by `processTrainerData` has all five
Strength-Lab fields and `newMembers` pinned to `0`, whatever the input
record contains. -/
theorem strengthSideAlwaysZero (payrollData : List PayrollData)
    (row : ProcessedTrainerData)
    (hrow : row ∈ processTrainerData payrollData) :
    row.strengthSessions = 0 ∧ row.emptyStrengthSessions = 0 ∧
    row.nonEmptyStrengthSessions = 0 ∧ row.strengthCustomers = 0 ∧
    row.strengthRevenue = 0 ∧ row.newMembers = 0 := by
  rcases List.mem_map.1 hrow with ⟨r, _, rfl⟩
  exact ⟨rfl, rfl, rfl, rfl, rfl, rfl⟩

/-- Witness for C10 on a singleton payroll list. -/
theorem strengthSideAlwaysZero_witness :
    processOne payrollBlank ∈ processTrainerData [payrollBlank] ∧
    (processOne payrollBlank).strengthSessions = 0 ∧
    (processOne payrollBlank).newMembers = 0 :=
  ⟨by simp [processTrainerData],
   (strengthSideAlwaysZero [payrollBlank] (processOne payrollBlank)
      (by simp [processTrainerData])).1,
   (strengthSideAlwaysZero [payrollBlank] (processOne payrollBlank)
      (by simp [processTrainerData])).2.2.2.2.2⟩

end Insight
